import Mathlib

/-!
Verification of the declarative build-configuration resolution engine
described by the specification of robertvazan/hookless-servlets.

The repository itself contains a single project-definition script
(`src/scripts/configure.py`) that binds metadata constants and dependency
declarations and then calls `generate(globals())` from the external
project-config library.  The engine components (Override Resolver,
Dependency Set Builder, Manifest Renderer, Generation Driver) live in that
external library, so they are modelled here from the specification's
contracts; the metadata constants and the dependency registration order
are embedded directly from `configure.py`.
-/

namespace ProjectConfig

/-- A ConfigKey is a string identifier naming a single configuration fact. -/
abbrev ConfigKey := String

/-- Modelled from the spec: a ConfigValue is a typed scalar or small
structured value (string, integer, boolean, or ordered list of strings). -/
inductive ConfigValue where
  | str (s : String)
  | int (n : Int)
  | bool (b : Bool)
  | strList (l : List String)
deriving DecidableEq, Repr

/-- A configuration is an ordered sequence of key/value bindings. -/
abbrev Configuration := List (ConfigKey × ConfigValue)

/-- Modelled from the spec: the error kinds of the engine (section 7). -/
inductive GenError where
  | duplicateKey (k : ConfigKey)
  | missingRequiredKey (k : ConfigKey)
  | invalidCoordinate (group artifact version : String)
  | artifactWriteError (path : String)
deriving DecidableEq, Repr

/-- Lookup of a key in a configuration: the first binding wins. -/
def lookupKey : Configuration → ConfigKey → Option ConfigValue
  | [], _ => none
  | p :: c, k => if p.1 = k then some p.2 else lookupKey c k

/-- The keys of a configuration, in order. -/
def keysOf (c : Configuration) : List ConfigKey :=
  c.map (fun p => p.1)

/-- First-occurrence deduplication of a key list. -/
def dedupKeys : List ConfigKey → List ConfigKey
  | [] => []
  | k :: ks => k :: (dedupKeys ks).filter (fun k2 => decide (k2 ≠ k))

/-- Modelled from the spec: override-wins value selection. For a key, the
value from the overrides wins if present, else the defaults value is used. -/
def resolvedValue (defaults overrides : Configuration) (k : ConfigKey) :
    Option ConfigValue :=
  match lookupKey overrides k with
  | some v => some v
  | none => lookupKey defaults k

/-- Modelled from the spec: the Override Resolver (section 4.2).
`resolve required defaults overrides` merges the two configurations with
override-wins semantics over every key present in either input, and fails
with `MissingRequiredKeyError` if some key of `required` (the keys marked
required by the renderer set) is absent from both inputs. -/
def resolve (required : List ConfigKey) (defaults overrides : Configuration) :
    Except GenError Configuration :=
  match required.find?
      (fun k => (lookupKey defaults k).isNone && (lookupKey overrides k).isNone) with
  | some k => .error (.missingRequiredKey k)
  | none =>
      .ok ((dedupKeys (keysOf defaults ++ keysOf overrides)).filterMap
        (fun k => (resolvedValue defaults overrides k).map (fun v => (k, v))))

/-! ### Lookup lemmas -/

theorem mem_keysOf_iff_isSome (c : Configuration) (k : ConfigKey) :
    k ∈ keysOf c ↔ (lookupKey c k).isSome := by
  induction c with
  | nil => simp [keysOf, lookupKey]
  | cons p c ih =>
    by_cases h : p.1 = k
    · simp [keysOf, lookupKey, h]
    · have hkeys : keysOf (p :: c) = p.1 :: keysOf c := rfl
      rw [hkeys, List.mem_cons, lookupKey, if_neg h]
      simp [Ne.symm h, ih]

theorem mem_dedupKeys_iff (l : List ConfigKey) (k : ConfigKey) :
    k ∈ dedupKeys l ↔ k ∈ l := by
  induction l with
  | nil => simp [dedupKeys]
  | cons k0 ks ih =>
    by_cases h : k = k0
    · simp [dedupKeys, h]
    · simp [dedupKeys, List.mem_filter, h, ih]

theorem lookupKey_filterMap (ks : List ConfigKey)
    (g : ConfigKey → Option ConfigValue) (k : ConfigKey) :
    lookupKey (ks.filterMap (fun k2 => (g k2).map (fun v => (k2, v)))) k =
      if k ∈ ks then g k else none := by
  induction ks with
  | nil => simp [lookupKey]
  | cons k0 ks ih =>
    simp only [List.filterMap_cons]
    cases hg : g k0 with
    | none =>
      by_cases hk : k0 = k
      · subst hk
        simp [ih, hg]
      · simp [ih, hk, Ne.symm hk]
    | some v =>
      by_cases hk : k0 = k
      · subst hk
        simp [lookupKey, hg]
      · simp [lookupKey, hk, ih, Ne.symm hk]

/-! ### Dependency Set Builder -/

/-- From the spec data model: a dependency coordinate triple plus an
optional scope tag.  Identity of entries is by (group, artifact). -/
structure DependencyDeclaration where
  group : String
  artifact : String
  version : String
  scope : Option String := none
deriving DecidableEq, Repr

/-- The identity of a declaration: its (group, artifact) pair. -/
def coordKey (d : DependencyDeclaration) : String × String :=
  (d.group, d.artifact)

/-- The coordinate pairs of a declaration list, in order. -/
def coordKeys (l : List DependencyDeclaration) : List (String × String) :=
  l.map coordKey

/-- Modelled from the spec: coordinate validity for the Dependency Set
Builder; group and artifact must be nonempty, and version must be nonempty
for a non-managed dependency (the data model has no managed dependencies,
so every declaration is non-managed). -/
def validCoordinate (d : DependencyDeclaration) : Bool :=
  decide (d.group ≠ "") && decide (d.artifact ≠ "") && decide (d.version ≠ "")

/-- Modelled from the spec: process one declaration.  When an entry with
the same (group, artifact) is already present, the later declaration
replaces the earlier one in place; otherwise it is appended. -/
def addDecl (acc : List DependencyDeclaration) (d : DependencyDeclaration) :
    List DependencyDeclaration :=
  if coordKey d ∈ coordKeys acc then
    acc.map (fun e => if coordKey e = coordKey d then d else e)
  else
    acc ++ [d]

/-- The deduplicating fold underlying the Dependency Set Builder:
declarations are processed in insertion order. -/
def buildList (ds : List DependencyDeclaration) : List DependencyDeclaration :=
  ds.foldl addDecl []

/-- Modelled from the spec: the Dependency Set Builder (section 4.3);
fails with `InvalidCoordinateError` on a malformed declaration, otherwise
returns the deduplicated, insertion-ordered dependency set. -/
def build (ds : List DependencyDeclaration) :
    Except GenError (List DependencyDeclaration) :=
  match ds.find? (fun d => !(validCoordinate d)) with
  | some d => .error (.invalidCoordinate d.group d.artifact d.version)
  | none => .ok (buildList ds)

/-- The last declaration of `ds` sharing the coordinate pair of `d`,
defaulting to `d` itself when none exists. -/
def lastWith (d : DependencyDeclaration) (ds : List DependencyDeclaration) :
    DependencyDeclaration :=
  (ds.filter (fun e => decide (coordKey e = coordKey d))).getLastD d

/-- First-position/last-value deduplication, stated the way the claim
reads: one entry per (group, artifact) pair, ordered by the first
occurrence of each pair, carrying the value of its last occurrence. -/
def dedupSpec : List DependencyDeclaration → List DependencyDeclaration
  | [] => []
  | d :: ds =>
      lastWith d ds ::
        dedupSpec (ds.filter (fun e => decide (coordKey e ≠ coordKey d)))
termination_by l => l.length
decreasing_by
  simp only [List.length_cons]
  exact Nat.lt_succ_of_le (List.length_filter_le _ ds)

/-! ### Dependency builder lemmas -/

theorem dedupSpec_cons (d : DependencyDeclaration)
    (ds : List DependencyDeclaration) :
    dedupSpec (d :: ds) =
      lastWith d ds ::
        dedupSpec (ds.filter (fun e => decide (coordKey e ≠ coordKey d))) := by
  rw [dedupSpec]

theorem lastWith_nil (e : DependencyDeclaration) : lastWith e [] = e := by
  simp [lastWith]

theorem lastWith_cons_same {e d : DependencyDeclaration}
    (ds : List DependencyDeclaration) (h : coordKey e = coordKey d) :
    lastWith e (d :: ds) = lastWith d ds := by
  unfold lastWith
  rw [List.filter_cons_of_pos (by simp [h])]
  rw [List.getLastD_cons]
  congr 1
  apply List.filter_congr
  intro a _
  simp [h]

theorem lastWith_cons_diff {e d : DependencyDeclaration}
    (ds : List DependencyDeclaration) (h : coordKey e ≠ coordKey d) :
    lastWith e (d :: ds) = lastWith e ds := by
  unfold lastWith
  rw [List.filter_cons_of_neg (by simpa using Ne.symm h)]

theorem foldl_addDecl_spec (n : Nat) :
    ∀ ds : List DependencyDeclaration, ds.length ≤ n →
      ∀ acc, ds.foldl addDecl acc =
        acc.map (fun e => lastWith e ds) ++
          dedupSpec (ds.filter (fun d => decide (coordKey d ∉ coordKeys acc))) := by
  induction n with
  | zero =>
    intro ds hlen acc
    have hnil : ds = [] := List.length_eq_zero.mp (Nat.le_zero.mp hlen)
    subst hnil
    simp [dedupSpec, lastWith_nil]
  | succ n ih =>
    intro ds hlen acc
    cases ds with
    | nil => simp [dedupSpec, lastWith_nil]
    | cons d ds' =>
      simp only [List.foldl_cons]
      rw [ih ds' (Nat.le_of_succ_le_succ hlen) (addDecl acc d)]
      by_cases hmem : coordKey d ∈ coordKeys acc
      · rw [addDecl, if_pos hmem]
        have hkeys :
            coordKeys (acc.map (fun e => if coordKey e = coordKey d then d else e)) =
              coordKeys acc := by
          simp only [coordKeys, List.map_map]
          apply List.map_congr_left
          intro e _
          by_cases h : coordKey e = coordKey d
          · simp [Function.comp, h]
          · simp [Function.comp, h]
        rw [hkeys]
        congr 1
        · rw [List.map_map]
          apply List.map_congr_left
          intro e _
          by_cases h : coordKey e = coordKey d
          · simp only [Function.comp]
            rw [if_pos h, lastWith_cons_same ds' h]
          · simp only [Function.comp]
            rw [if_neg h, lastWith_cons_diff ds' h]
        · congr 1
          rw [List.filter_cons_of_neg (by simp [hmem])]
      · rw [addDecl, if_neg hmem]
        have hne : ∀ e ∈ acc, coordKey e ≠ coordKey d := by
          intro e he heq
          exact hmem (heq ▸ List.mem_map_of_mem coordKey he)
        rw [List.filter_cons_of_pos (by simp [hmem]), dedupSpec_cons, List.map_append]
        have hmap : acc.map (fun e => lastWith e (d :: ds')) =
            acc.map (fun e => lastWith e ds') := by
          apply List.map_congr_left
          intro e he
          rw [lastWith_cons_diff ds' (hne e he)]
        rw [hmap]
        have hlast :
            lastWith d (ds'.filter (fun e => decide (coordKey e ∉ coordKeys acc))) =
              lastWith d ds' := by
          unfold lastWith
          congr 1
          rw [List.filter_filter]
          apply List.filter_congr
          intro a _
          by_cases h : coordKey a = coordKey d
          · simp [h, hmem]
          · simp [h]
        have hfilters :
            ds'.filter (fun e => decide (coordKey e ∉ coordKeys (acc ++ [d]))) =
              (ds'.filter (fun e => decide (coordKey e ∉ coordKeys acc))).filter
                (fun e => decide (coordKey e ≠ coordKey d)) := by
          rw [List.filter_filter]
          apply List.filter_congr
          intro a _
          have hk : coordKeys (acc ++ [d]) = coordKeys acc ++ [coordKey d] := by
            simp [coordKeys]
          rw [hk]
          by_cases h1 : coordKey a ∈ coordKeys acc
          · simp [h1]
          · by_cases h2 : coordKey a = coordKey d
            · simp [h1, h2]
            · simp [h1, h2]
        rw [hfilters, hlast]
        simp

/-- The Dependency Set Builder computes exactly the first-position,
last-value deduplication of its input. -/
theorem buildList_eq_dedupSpec (ds : List DependencyDeclaration) :
    buildList ds = dedupSpec ds := by
  unfold buildList
  rw [foldl_addDecl_spec ds.length ds (Nat.le_refl _) []]
  simp [coordKeys]

theorem coordKey_getLastD (l : List DependencyDeclaration) :
    ∀ d, (∀ e ∈ l, coordKey e = coordKey d) → coordKey (l.getLastD d) = coordKey d := by
  induction l with
  | nil =>
    intro d _
    simp
  | cons a l ih =>
    intro d h
    rw [List.getLastD_cons]
    have ha : coordKey a = coordKey d := h a (List.mem_cons_self a l)
    rw [ih a (fun e he => by rw [h e (List.mem_cons_of_mem a he), ha])]
    exact ha

theorem coordKey_lastWith (d : DependencyDeclaration)
    (ds : List DependencyDeclaration) :
    coordKey (lastWith d ds) = coordKey d := by
  unfold lastWith
  apply coordKey_getLastD
  intro e he
  have h := (List.mem_filter.mp he).2
  simpa using h

theorem mem_dedupSpec_key (n : Nat) :
    ∀ l : List DependencyDeclaration, l.length ≤ n →
      ∀ a ∈ dedupSpec l, coordKey a ∈ coordKeys l := by
  induction n with
  | zero =>
    intro l hl a ha
    have hnil : l = [] := List.length_eq_zero.mp (Nat.le_zero.mp hl)
    subst hnil
    simp [dedupSpec] at ha
  | succ n ih =>
    intro l hl a ha
    cases l with
    | nil => simp [dedupSpec] at ha
    | cons d ds =>
      rw [dedupSpec_cons] at ha
      rcases List.mem_cons.mp ha with h | h
      · subst h
        rw [coordKey_lastWith]
        exact List.mem_cons_self _ _
      · have hlen : (ds.filter (fun e => decide (coordKey e ≠ coordKey d))).length ≤ n :=
          le_trans (List.length_filter_le _ ds) (Nat.le_of_succ_le_succ hl)
        have hk := ih _ hlen a h
        obtain ⟨e, he, hek⟩ := List.mem_map.mp hk
        rw [← hek]
        exact List.mem_cons_of_mem _ (List.mem_map_of_mem coordKey (List.mem_filter.mp he).1)

theorem dedupSpec_pairwise (n : Nat) :
    ∀ l : List DependencyDeclaration, l.length ≤ n →
      (dedupSpec l).Pairwise (fun a b => coordKey a ≠ coordKey b) := by
  induction n with
  | zero =>
    intro l hl
    have hnil : l = [] := List.length_eq_zero.mp (Nat.le_zero.mp hl)
    subst hnil
    simp [dedupSpec]
  | succ n ih =>
    intro l hl
    cases l with
    | nil => simp [dedupSpec]
    | cons d ds =>
      rw [dedupSpec_cons]
      have hlen : (ds.filter (fun e => decide (coordKey e ≠ coordKey d))).length ≤ n :=
        le_trans (List.length_filter_le _ ds) (Nat.le_of_succ_le_succ hl)
      refine List.pairwise_cons.mpr ⟨?_, ih _ hlen⟩
      intro b hb
      have hbk := mem_dedupSpec_key n _ hlen b hb
      obtain ⟨e, he, hek⟩ := List.mem_map.mp hbk
      have hne : coordKey e ≠ coordKey d := by
        have h2 := (List.mem_filter.mp he).2
        simpa using h2
      rw [coordKey_lastWith, ← hek]
      exact fun hdq => hne hdq.symm

/-! ### Manifest Renderer, filesystem and Generation Driver -/

/-- Generated file content, modelled as a byte sequence. -/
abbrev Bytes := List Nat

/-- Modelled from the spec: a template plugin (section 4.4) declares the
ConfigKeys it requires and a rendering function over the capability
(ResolvedConfiguration, DependencySet) to bytes. -/
structure Template where
  requiredKeys : List ConfigKey
  renderContent : Configuration → List DependencyDeclaration → Bytes

/-- A rendered artifact: a target file path plus its generated content. -/
structure RenderedArtifact where
  path : String
  content : Bytes
deriving DecidableEq, Repr

/-- The required keys declared by a template mapping, in order. -/
def requiredKeysOf (templates : List (String × Template)) : List ConfigKey :=
  (templates.map (fun t => t.2.requiredKeys)).flatten

/-- Modelled from the spec: the Manifest Renderer (section 4.4).  Every
template's required keys are checked against the configuration before any
template is invoked; then each artifact is rendered independently from the
configuration and the dependency set alone. -/
def render (config : Configuration) (deps : List DependencyDeclaration)
    (templates : List (String × Template)) :
    Except GenError (List RenderedArtifact) :=
  match (requiredKeysOf templates).find? (fun k => (lookupKey config k).isNone) with
  | some k => .error (.missingRequiredKey k)
  | none => .ok (templates.map (fun t => ⟨t.1, t.2.renderContent config deps⟩))

/-- The filesystem, modelled as a map from paths to file contents. -/
abbrev FileSystem := String → Option Bytes

/-- Write one artifact, overwriting any existing content at its path. -/
def writeArtifact (fs : FileSystem) (a : RenderedArtifact) : FileSystem :=
  fun q => if q = a.path then some a.content else fs q

/-- Write all artifacts in order. -/
def writeAll (fs : FileSystem) (arts : List RenderedArtifact) : FileSystem :=
  arts.foldl writeArtifact fs

/-- From the spec data model: a ProjectDefinition is an ordered sequence
of configuration overrides plus an ordered sequence of dependency
declarations. -/
structure ProjectDefinition where
  overrides : Configuration
  declarations : List DependencyDeclaration

/-- Modelled from the spec: steps (1) to (3) of the Generation Driver
(section 4.5): resolve the configuration, build the dependency set and
render every artifact, collecting all of them before any write; the
filesystem is not involved. -/
def planArtifacts (pd : ProjectDefinition) (defaults : Configuration)
    (templates : List (String × Template)) :
    Except GenError (List RenderedArtifact) :=
  match resolve (requiredKeysOf templates) defaults pd.overrides with
  | .error e => .error e
  | .ok config =>
      match build pd.declarations with
      | .error e => .error e
      | .ok deps => render config deps templates

/-- Modelled from the spec: the Generation Driver (section 4.5): plan all
artifacts, then write them; a validation error aborts the run before any
filesystem mutation.  The driver returns the run result together with the
resulting filesystem. -/
def generate (pd : ProjectDefinition) (defaults : Configuration)
    (templates : List (String × Template)) (fs : FileSystem) :
    Except GenError Unit × FileSystem :=
  match planArtifacts pd defaults templates with
  | .error e => (.error e, fs)
  | .ok arts => (.ok (), writeAll fs arts)

/-! ### Filesystem lemmas -/

theorem writeAll_apply (arts : List RenderedArtifact) :
    ∀ (fs : FileSystem) (q : String),
      writeAll fs arts q =
        match arts.reverse.find? (fun a => decide (a.path = q)) with
        | some a => some a.content
        | none => fs q := by
  induction arts with
  | nil => intro fs q; simp [writeAll]
  | cons a arts ih =>
    intro fs q
    have hstep : writeAll fs (a :: arts) = writeAll (writeArtifact fs a) arts := rfl
    rw [hstep, ih]
    rw [List.reverse_cons, List.find?_append]
    cases hf : arts.reverse.find? (fun b => decide (b.path = q)) with
    | some b => rfl
    | none =>
      rw [Option.none_or]
      by_cases hq : a.path = q
      · rw [List.find?_cons_of_pos _ (by simpa using hq)]
        simp [writeArtifact, hq]
      · rw [List.find?_cons_of_neg _ (by simpa using hq), List.find?_nil]
        simp [writeArtifact, Ne.symm hq]

theorem writeAll_idem (fs : FileSystem) (arts : List RenderedArtifact) :
    writeAll (writeAll fs arts) arts = writeAll fs arts := by
  funext q
  rw [writeAll_apply, writeAll_apply]
  cases hf : arts.reverse.find? (fun a => decide (a.path = q)) with
  | some a => rfl
  | none => rfl

/-! ### The project definition script `src/scripts/configure.py` -/

/-- From `configure.py`: the repository name constant. -/
def repository_name : Unit → String := fun _ => "hookless-servlets"

/-- From `configure.py`: the pretty name constant. -/
def pretty_name : Unit → String := fun _ => "Hookless Servlets"

/-- From `configure.py`: the POM subgroup constant. -/
def pom_subgroup : Unit → String := fun _ => "hookless"

/-- From `configure.py`: the POM description constant. -/
def pom_description : Unit → String :=
  fun _ => "Reactive adapters for jakarta.servlet.* classes."

/-- From `configure.py`: the inception year constant. -/
def inception_year : Unit → Int := fun _ => 2018

/-- From `configure.py`: the JDK version constant. -/
def jdk_version : Unit → Int := fun _ => 11

/-- From `configure.py`: the stagean annotations flag constant. -/
def stagean_annotations : Unit → Bool := fun _ => true

/-- Modelled from the spec: the dependency registrations contributed by
the external project-config library's helpers.  The helpers themselves are
not part of this repository, so each registration is abstracted by the
helper's name; an explicit coordinate passed to `use` is recorded
verbatim. -/
inductive DependencyUse where
  | hookless
  | coordinate (c : String)
  | commons_collections
  | junit
  | hamcrest
  | mockito
  | slf4j_test
deriving DecidableEq, Repr

/-- Modelled from the spec: `use_hookless()` registers the hookless
dependency. -/
def use_hookless : List DependencyUse := [.hookless]

/-- Modelled from the spec: `use(coordinate)` registers the explicitly
given coordinate. -/
def use (c : String) : List DependencyUse := [.coordinate c]

/-- Modelled from the spec: `use_commons_collections()` registers the
commons-collections dependency. -/
def use_commons_collections : List DependencyUse := [.commons_collections]

/-- Modelled from the spec: `use_junit()` registers the junit
dependency. -/
def use_junit : List DependencyUse := [.junit]

/-- Modelled from the spec: `use_hamcrest()` registers the hamcrest
dependency. -/
def use_hamcrest : List DependencyUse := [.hamcrest]

/-- Modelled from the spec: `use_mockito()` registers the mockito
dependency. -/
def use_mockito : List DependencyUse := [.mockito]

/-- Modelled from the spec: `use_slf4j_test()` registers the slf4j-test
dependency. -/
def use_slf4j_test : List DependencyUse := [.slf4j_test]

/-- From `configure.py`: the `dependencies` function performs its seven
registrations in source order. -/
def dependencies : Unit → List DependencyUse := fun _ =>
  use_hookless ++
    use "org.eclipse.jetty.toolchain:jetty-jakarta-servlet-api:5.0.2" ++
    use_commons_collections ++ use_junit ++ use_hamcrest ++ use_mockito ++
    use_slf4j_test

/-! ### Resolver lemmas -/

theorem resolve_ok_eq (required : List ConfigKey)
    (defaults overrides r : Configuration)
    (h : resolve required defaults overrides = .ok r) :
    r = (dedupKeys (keysOf defaults ++ keysOf overrides)).filterMap
        (fun k => (resolvedValue defaults overrides k).map (fun v => (k, v))) := by
  unfold resolve at h
  split at h
  · exact absurd h (by simp)
  · injection h with h2
    exact h2.symm

theorem lookupKey_resolve (required : List ConfigKey)
    (defaults overrides r : Configuration)
    (h : resolve required defaults overrides = .ok r) (k : ConfigKey) :
    lookupKey r k =
      if k ∈ keysOf defaults ∨ k ∈ keysOf overrides
        then resolvedValue defaults overrides k else none := by
  rw [resolve_ok_eq required defaults overrides r h, lookupKey_filterMap]
  by_cases hk : k ∈ dedupKeys (keysOf defaults ++ keysOf overrides)
  · rw [if_pos hk, if_pos (by simpa [mem_dedupKeys_iff, List.mem_append] using hk)]
  · rw [if_neg hk, if_neg (by simpa [mem_dedupKeys_iff, List.mem_append] using hk)]

theorem resolvedValue_isSome (defaults overrides : Configuration)
    (k : ConfigKey) :
    (resolvedValue defaults overrides k).isSome =
      ((lookupKey defaults k).isSome || (lookupKey overrides k).isSome) := by
  unfold resolvedValue
  cases ho : lookupKey overrides k with
  | some v => simp
  | none => simp

/-! ### Claim theorems -/

/-- Claim C1: override resolution is override-wins: whenever resolution
succeeds, for every ConfigKey present in either input the result binds the
key to the overrides value when the key is present in the overrides and
otherwise to the defaults value, and the result contains every key of the
defaults and every key of the overrides and no other keys. -/
theorem resolve_override_wins (required : List ConfigKey)
    (defaults overrides r : Configuration)
    (h : resolve required defaults overrides = .ok r) :
    (∀ k, k ∈ keysOf r ↔ (k ∈ keysOf defaults ∨ k ∈ keysOf overrides)) ∧
    (∀ k, k ∈ keysOf overrides → lookupKey r k = lookupKey overrides k) ∧
    (∀ k, k ∉ keysOf overrides → lookupKey r k = lookupKey defaults k) := by
  refine ⟨?_, ?_, ?_⟩
  · intro k
    rw [mem_keysOf_iff_isSome, lookupKey_resolve required defaults overrides r h]
    by_cases hk : k ∈ keysOf defaults ∨ k ∈ keysOf overrides
    · rw [if_pos hk, resolvedValue_isSome]
      simp only [mem_keysOf_iff_isSome] at hk ⊢
      simp [hk]
    · rw [if_neg hk]
      simp [hk]
  · intro k hko
    rw [lookupKey_resolve required defaults overrides r h, if_pos (Or.inr hko)]
    unfold resolvedValue
    rw [mem_keysOf_iff_isSome] at hko
    obtain ⟨v, hv⟩ := Option.isSome_iff_exists.mp hko
    rw [hv]
  · intro k hko
    have hnone : lookupKey overrides k = none := by
      rw [mem_keysOf_iff_isSome] at hko
      simpa using hko
    by_cases hd : k ∈ keysOf defaults
    · rw [lookupKey_resolve required defaults overrides r h, if_pos (Or.inl hd)]
      unfold resolvedValue
      rw [hnone]
    · rw [lookupKey_resolve required defaults overrides r h,
        if_neg (by exact fun hc => hc.elim hd hko)]
      have hd2 : lookupKey defaults k = none := by
        rw [mem_keysOf_iff_isSome] at hd
        simpa using hd
      rw [hd2]

/-- Witness: the override-wins theorem applied to defaults binding
jdkVersion to 11 and overrides binding jdkVersion to 17. -/
theorem resolve_override_wins_witness :
    (∀ k, k ∈ keysOf [("jdkVersion", ConfigValue.int 17)] ↔
        (k ∈ keysOf [("jdkVersion", ConfigValue.int 11)] ∨
          k ∈ keysOf [("jdkVersion", ConfigValue.int 17)])) ∧
    (∀ k, k ∈ keysOf [("jdkVersion", ConfigValue.int 17)] →
        lookupKey [("jdkVersion", ConfigValue.int 17)] k =
          lookupKey [("jdkVersion", ConfigValue.int 17)] k) ∧
    (∀ k, k ∉ keysOf [("jdkVersion", ConfigValue.int 17)] →
        lookupKey [("jdkVersion", ConfigValue.int 17)] k =
          lookupKey [("jdkVersion", ConfigValue.int 11)] k) :=
  resolve_override_wins [] [("jdkVersion", ConfigValue.int 11)]
    [("jdkVersion", ConfigValue.int 17)] [("jdkVersion", ConfigValue.int 17)] rfl

/-- Claim C4: resolution fails iff a required key is unresolvable: it
errors exactly when some required key is absent from both inputs, every
error it produces is a MissingRequiredKeyError, and when every required
key is covered it returns a resolved configuration without error. -/
theorem resolve_error_iff_missing (required : List ConfigKey)
    (defaults overrides : Configuration) :
    ((∃ e, resolve required defaults overrides = .error e) ↔
      ∃ k, k ∈ required ∧ lookupKey defaults k = none ∧
        lookupKey overrides k = none) ∧
    (∀ e, resolve required defaults overrides = .error e →
      ∃ k, e = .missingRequiredKey k) ∧
    ((∀ k, k ∈ required →
        lookupKey defaults k ≠ none ∨ lookupKey overrides k ≠ none) →
      ∃ r, resolve required defaults overrides = .ok r) := by
  cases hf : required.find?
      (fun k => (lookupKey defaults k).isNone && (lookupKey overrides k).isNone) with
  | some k =>
    have hp := List.find?_some hf
    have hmem := List.mem_of_find?_eq_some hf
    simp only [Bool.and_eq_true, Option.isNone_iff_eq_none] at hp
    have hres : resolve required defaults overrides = .error (.missingRequiredKey k) := by
      unfold resolve
      rw [hf]
    refine ⟨⟨fun _ => ⟨k, hmem, hp.1, hp.2⟩, fun _ => ⟨_, hres⟩⟩, ?_, ?_⟩
    · intro e he
      rw [hres] at he
      injection he with he2
      exact ⟨k, he2.symm⟩
    · intro hcov
      rcases hcov k hmem with hd | ho
      · exact absurd hp.1 hd
      · exact absurd hp.2 ho
  | none =>
    have hall := List.find?_eq_none.mp hf
    have hres : resolve required defaults overrides =
        .ok ((dedupKeys (keysOf defaults ++ keysOf overrides)).filterMap
          (fun k => (resolvedValue defaults overrides k).map (fun v => (k, v)))) := by
      unfold resolve
      rw [hf]
    refine ⟨⟨?_, ?_⟩, ?_, fun _ => ⟨_, hres⟩⟩
    · intro hex
      obtain ⟨e, he⟩ := hex
      rw [hres] at he
      exact absurd he (by simp)
    · intro hex
      obtain ⟨k, hk, hd, ho⟩ := hex
      exact absurd (by simp [hd, ho]) (hall k hk)
    · intro e he
      rw [hres] at he
      exact absurd he (by simp)

/-- Witness: resolution succeeds when the single required key is covered
by the overrides. -/
theorem resolve_error_iff_missing_witness :
    ∃ r, resolve ["repoName"] []
        [("repoName", ConfigValue.str "hookless-servlets")] = .ok r :=
  (resolve_error_iff_missing ["repoName"] []
    [("repoName", ConfigValue.str "hookless-servlets")]).2.2 (by decide)

/-- Claim C8: resolving defaults binding jdkVersion to 11 against
overrides binding jdkVersion to 17 and repoName to hookless-servlets
yields exactly the configuration binding jdkVersion to 17 and repoName to
hookless-servlets. -/
theorem resolve_scenario :
    resolve [] [("jdkVersion", ConfigValue.int 11)]
        [("jdkVersion", ConfigValue.int 17),
          ("repoName", ConfigValue.str "hookless-servlets")] =
      .ok [("jdkVersion", ConfigValue.int 17),
            ("repoName", ConfigValue.str "hookless-servlets")] := rfl

theorem build_ok (ds out : List DependencyDeclaration)
    (h : build ds = .ok out) : out = dedupSpec ds := by
  unfold build at h
  split at h
  · exact absurd h (by simp)
  · injection h with h2
    rw [← h2, buildList_eq_dedupSpec]

/-- Claim C2: dependency set building deduplicates by coordinate with
first-position/last-value semantics: every successful build equals the
first-occurrence-ordered, last-value deduplication of the declarations; in
particular two declarations for one (group, artifact) pair yield exactly
one entry carrying the later version. -/
theorem build_first_position_last_value :
    (∀ ds out, build ds = .ok out → out = dedupSpec ds) ∧
    (∀ g a v1 v2 s1 s2 out,
      build [⟨g, a, v1, s1⟩, ⟨g, a, v2, s2⟩] = .ok out →
        out = [⟨g, a, v2, s2⟩]) := by
  refine ⟨fun ds out h => build_ok ds out h, ?_⟩
  intro g a v1 v2 s1 s2 out h
  rw [build_ok _ _ h, dedupSpec_cons]
  simp [lastWith, coordKey, dedupSpec]

/-- Witness: the junit scenario from the specification, with versions 4.13
and then 4.13.2. -/
theorem build_first_position_last_value_witness :
    ([⟨"org.junit", "junit", "4.13.2", none⟩] : List DependencyDeclaration) =
      dedupSpec [⟨"org.junit", "junit", "4.13", none⟩,
        ⟨"org.junit", "junit", "4.13.2", none⟩] :=
  build_first_position_last_value.1 _ _ (by rfl)

/-- Claim C5: DependencySet uniqueness invariant: a successfully built
dependency set contains no two entries sharing one (group, artifact)
pair. -/
theorem dependencySet_unique (ds out : List DependencyDeclaration)
    (h : build ds = .ok out) :
    out.Pairwise (fun a b => coordKey a ≠ coordKey b) := by
  rw [build_ok ds out h]
  exact dedupSpec_pairwise ds.length ds (Nat.le_refl _)

/-- Witness: the uniqueness invariant on a concrete two-entry build. -/
theorem dependencySet_unique_witness :
    ([⟨"com.machinezoo.hookless", "hookless", "1.0", none⟩,
      ⟨"org.junit", "junit", "4.13.2", none⟩] :
        List DependencyDeclaration).Pairwise
      (fun a b => coordKey a ≠ coordKey b) :=
  dependencySet_unique
    [⟨"com.machinezoo.hookless", "hookless", "1.0", none⟩,
      ⟨"org.junit", "junit", "4.13.2", none⟩] _ (by rfl)

/-- Claim C3: validation precedes mutation: when some template's required
key is missing from both the defaults and the project's overrides, the
run fails with MissingRequiredKeyError and the filesystem after the run
equals the filesystem before it. -/
theorem generate_missing_key_no_mutation (pd : ProjectDefinition)
    (defaults : Configuration) (templates : List (String × Template))
    (fs : FileSystem)
    (h : ∃ t, t ∈ templates ∧ ∃ k, k ∈ t.2.requiredKeys ∧
        lookupKey defaults k = none ∧ lookupKey pd.overrides k = none) :
    ∃ k, generate pd defaults templates fs =
      (.error (.missingRequiredKey k), fs) := by
  obtain ⟨t, ht, k, hk, hd, ho⟩ := h
  have hkreq : k ∈ requiredKeysOf templates := by
    unfold requiredKeysOf
    rw [List.mem_flatten]
    exact ⟨t.2.requiredKeys, List.mem_map_of_mem _ ht, hk⟩
  have hsome : ((requiredKeysOf templates).find?
      (fun k2 => (lookupKey defaults k2).isNone &&
        (lookupKey pd.overrides k2).isNone)).isSome := by
    rw [List.find?_isSome]
    exact ⟨k, hkreq, by simp [hd, ho]⟩
  obtain ⟨k2, hk2⟩ := Option.isSome_iff_exists.mp hsome
  refine ⟨k2, ?_⟩
  unfold generate planArtifacts resolve
  rw [hk2]

/-- Witness: a run whose single template requires the absent repoName key
fails and leaves the empty filesystem untouched. -/
theorem generate_missing_key_no_mutation_witness :
    ∃ k, generate ⟨[], []⟩ []
        [("build.xml", ⟨["repoName"], fun _ _ => []⟩)] (fun _ => none) =
      (.error (.missingRequiredKey k), (fun _ => none : FileSystem)) :=
  generate_missing_key_no_mutation ⟨[], []⟩ []
    [("build.xml", ⟨["repoName"], fun _ _ => []⟩)] (fun _ => none)
    ⟨("build.xml", ⟨["repoName"], fun _ _ => []⟩), by simp, "repoName",
      by simp, rfl, rfl⟩

/-- Claim C6: generation is idempotent on the filesystem: running the
driver twice in succession with unchanged inputs leaves the filesystem in
exactly the state one run leaves it. -/
theorem generate_idempotent (pd : ProjectDefinition)
    (defaults : Configuration) (templates : List (String × Template))
    (fs : FileSystem) :
    (generate pd defaults templates
        (generate pd defaults templates fs).2).2 =
      (generate pd defaults templates fs).2 := by
  unfold generate
  cases hp : planArtifacts pd defaults templates with
  | error e => rfl
  | ok arts => exact writeAll_idem fs arts

/-- Witness: idempotence evaluated on a concrete empty project over an
empty filesystem. -/
theorem generate_idempotent_witness :
    (generate ⟨[], []⟩ [] []
        ((generate ⟨[], []⟩ [] [] (fun _ => none)).2)).2 =
      (generate ⟨[], []⟩ [] [] (fun _ => none)).2 :=
  generate_idempotent ⟨[], []⟩ [] [] (fun _ => none)

/-- Claim C7: rendering is deterministic and order-independent: identical
inputs give identical output, and each rendered artifact is a function of
its own template, the configuration and the dependency set only,
independent of the other templates' execution. -/
theorem render_deterministic (config : Configuration)
    (deps : List DependencyDeclaration)
    (templates : List (String × Template)) :
    render config deps templates = render config deps templates ∧
    (∀ arts, render config deps templates = .ok arts →
      arts = templates.map (fun t => ⟨t.1, t.2.renderContent config deps⟩)) := by
  refine ⟨rfl, ?_⟩
  intro arts h
  unfold render at h
  split at h
  · exact absurd h (by simp)
  · injection h with h2
    exact h2.symm

/-- Witness: a one-template rendering evaluated concretely. -/
theorem render_deterministic_witness :
    ([⟨"readme", [104, 105]⟩] : List RenderedArtifact) =
      ([("readme", ⟨[], fun _ _ => [104, 105]⟩)] :
          List (String × Template)).map
        (fun t => ⟨t.1, t.2.renderContent [] []⟩) :=
  (render_deterministic [] [] [("readme", ⟨[], fun _ _ => [104, 105]⟩)]).2
    [⟨"readme", [104, 105]⟩] rfl

/-- Claim C9: every metadata accessor the project script contributes is a
constant zero-argument function returning the same value on every call;
jdk_version returns 11, inception_year returns 2018, repository_name
returns hookless-servlets, and likewise for the remaining constants. -/
theorem metadata_accessors_constant (u v : Unit) :
    repository_name u = repository_name v ∧
    pretty_name u = pretty_name v ∧
    pom_subgroup u = pom_subgroup v ∧
    pom_description u = pom_description v ∧
    inception_year u = inception_year v ∧
    jdk_version u = jdk_version v ∧
    stagean_annotations u = stagean_annotations v ∧
    jdk_version u = 11 ∧
    inception_year u = 2018 ∧
    repository_name u = "hookless-servlets" ∧
    pretty_name u = "Hookless Servlets" ∧
    pom_subgroup u = "hookless" ∧
    pom_description u = "Reactive adapters for jakarta.servlet.* classes." ∧
    stagean_annotations u = true :=
  ⟨rfl, rfl, rfl, rfl, rfl, rfl, rfl, rfl, rfl, rfl, rfl, rfl, rfl, rfl⟩

/-- Witness: the repository name accessor evaluated at the unit
argument. -/
theorem metadata_accessors_constant_witness :
    repository_name () = "hookless-servlets" :=
  (metadata_accessors_constant () ()).2.2.2.2.2.2.2.2.2.1

/-- Claim C10: the dependencies function contributes the same seven
registrations in the same fixed order on every invocation: hookless, the
jetty-toolchain servlet API coordinate, commons-collections, junit,
hamcrest, mockito and slf4j-test, and nothing else. -/
theorem dependencies_fixed (u : Unit) :
    dependencies u =
      [DependencyUse.hookless,
        DependencyUse.coordinate
          "org.eclipse.jetty.toolchain:jetty-jakarta-servlet-api:5.0.2",
        DependencyUse.commons_collections, DependencyUse.junit,
        DependencyUse.hamcrest, DependencyUse.mockito,
        DependencyUse.slf4j_test] ∧
    (dependencies u).length = 7 :=
  ⟨rfl, rfl⟩

/-- Witness: the registration count evaluated at the unit argument. -/
theorem dependencies_fixed_witness : (dependencies ()).length = 7 :=
  (dependencies_fixed ()).2

end ProjectConfig
